import Mathlib

/-!
Verification of the qdrant vector-store adapter (langchaingo fork).

This file shallowly embeds the adapter's payload codec, query/scroll
response processing, upsert encoding, option validation and store
construction, translated from the Go sources under
`vectorstores/qdrant` (restapi.go, qdrant.go, options.go) and
`vectorstores/vectorstores.go`.  Machine floats (float32 scores and
vector components) are modelled as rationals; Go's dynamically typed
`any` values are modelled by the tagged `Value` type; Go's
`map[string]any` is modelled as an insertion-ordered association list
with overwriting insert (matching Go map-literal semantics); runtime
panics from failed type assertions, nil dereferences and
out-of-range indexing are made explicit as distinguished error
values of the `GoError` type.
-/

set_option autoImplicit false

namespace QdrantSpec

/-- A dynamically typed JSON-like value, modelling Go's `any` as it is
used in payloads and metadata (`null`, string, integer, rational number,
boolean, array, object). -/
inductive Value where
  | vnull : Value
  | vstr : String → Value
  | vint : Int → Value
  | vrat : Rat → Value
  | vbool : Bool → Value
  | varr : List Value → Value
  | vmap : List (String × Value) → Value

/-- Go's `map[string]any`, as an insertion-ordered association list with
overwriting insert. -/
abbrev GoMap := List (String × Value)

/-- Lookup in a `GoMap`; `none` models Go's zero-value (`nil`) result for
an absent key. -/
def mapLookup : GoMap → String → Option Value
  | [], _ => none
  | (k, v) :: rest, key => if k = key then some v else mapLookup rest key

/-- Insert into a `GoMap`, overwriting an existing binding of the same key
(Go map assignment / later map-literal entries win). -/
def mapInsert : GoMap → String → Value → GoMap
  | [], key, val => [(key, val)]
  | (k, v) :: rest, key, val =>
      if k = key then (k, val) :: rest else (k, v) :: mapInsert rest key val

/-- A vector of float32 components, modelled over the rationals. -/
abbrev Vec := List Rat

/-- `schema.Document`: content string, metadata mapping, similarity score
(float32, output-only). -/
structure Document where
  pageContent : String
  metadata : GoMap
  score : Rat

/-- The observable error outcomes of the adapter's Go functions.  The
named `Err...` sentinels of qdrant.go appear verbatim; `apiError` is the
`APIError` struct; the `panic...` constructors make Go runtime panics
(failed type assertions, nil dereference, slice index out of range)
explicit, and `embedderFailure` models an error returned by the
caller-supplied embedder. -/
inductive GoError where
  | errMissingTextKey
  | errEmbedderWrongNumberVectors
  | errEmptyResponse
  | errInvalidScoreThreshold
  | apiError (task : String) (message : String)
  | embedderFailure (message : String)
  | panicInterfaceConversion
  | panicIndexOutOfRange
  | panicNilPointer
deriving DecidableEq

/-- The embedding provider: either the `vectorstores.NilEmbedder` struct
(which returns one `NewNilVector` per input text and is recognised by a
type assertion in `AddDocuments`) or an arbitrary caller-supplied
embedder given by its two capabilities, each of which may fail. -/
inductive Embedder where
  | nilEmbedder : Embedder
  | custom :
      (List String → Except String (List Vec)) →
      (String → Except String Vec) → Embedder

/-- `vectorstores.NewNilVector`: 1536 copies of 0.0000001. -/
def newNilVector : Vec := List.replicate 1536 ((1 : Rat) / 10000000)

/-- `EmbedDocuments` dispatched over the possibly-nil embedder interface
value; calling through a nil interface is a Go runtime panic. -/
def embedDocumentsGo : Option Embedder → List String → Except GoError (List Vec)
  | none, _ => .error .panicNilPointer
  | some .nilEmbedder, texts => .ok (texts.map fun _ => newNilVector)
  | some (.custom f _), texts =>
      match f texts with
      | .error m => .error (.embedderFailure m)
      | .ok vs => .ok vs

/-- The type assertion `s.embedder.(vectorstores.NilEmbedder)` in its
two-valued form: true exactly when the interface holds a `NilEmbedder`. -/
def isNilEmbedder : Option Embedder → Bool
  | some .nilEmbedder => true
  | _ => false

/-- The qdrant `Store` struct (nested content/metadata key generation). -/
structure Store where
  embedder : Option Embedder
  useCloud : Bool
  apiKey : String
  baseURL : String
  collectionName : String
  contentKey : String
  metadataKey : String
  indexKeys : List String
  collectionConfig : GoMap

/-- The `point` wire struct sent by `restUpsert` and returned by
`restScrollPoints` (vector, payload, id). -/
structure UpsertPoint where
  vector : Vec
  payload : GoMap
  id : String

/-- The `scoredPoint` wire struct of a search response. -/
structure ScoredPoint where
  id : String
  version : Int
  score : Rat
  payload : GoMap
  vector : Vec

/-- The `queriesResponse` wire struct of a search response. -/
structure QueriesResponse where
  time : Rat
  status : String
  result : List ScoredPoint

/-- The payload built for one point in `restUpsert`:
`map[string]any{s.contentKey: texts[i], s.metadataKey: metadatas[i]}`;
with equal keys the later literal entry overwrites the earlier one. -/
def encodePayload (s : Store) (text : String) (metadata : GoMap) : GoMap :=
  mapInsert (mapInsert [] s.contentKey (.vstr text)) s.metadataKey (.vmap metadata)

/-- The per-point document reconstruction inside `restQuery`'s loop:
`spoint.Payload[s.contentKey].(string)` in two-valued form (a non-string
or absent value yields `ErrMissingTextKey`), then the single-valued
assertion `spoint.Payload[s.metadataKey].(map[string]any)`, which panics
when the value is absent, null, or not a mapping. -/
def decodeScoredPoint (s : Store) (p : ScoredPoint) : Except GoError Document :=
  match mapLookup p.payload s.contentKey with
  | some (.vstr pageContent) =>
      match mapLookup p.payload s.metadataKey with
      | some (.vmap md) => .ok ⟨pageContent, md, p.score⟩
      | _ => .error .panicInterfaceConversion
  | _ => .error .errMissingTextKey

/-- Whether the per-point document reconstruction succeeds. -/
def decodeOk (s : Store) (p : ScoredPoint) : Bool :=
  match decodeScoredPoint s p with
  | .ok _ => true
  | .error _ => false

/-- Total projection of a decodable scored point to its document. -/
def decodedDoc (s : Store) (p : ScoredPoint) : Document :=
  match decodeScoredPoint s p with
  | .ok d => d
  | .error _ => ⟨"", [], 0⟩

/-- The result-processing loop of `restQuery` (restapi.go lines 234-253):
decode each point left to right, aborting on the first failure, and keep
a decoded document when `scoreThreshold != 0 && spoint.Score >=
scoreThreshold`, or else when `scoreThreshold == 0`. -/
def queryLoop (s : Store) (scoreThreshold : Rat) :
    List ScoredPoint → Except GoError (List Document)
  | [] => .ok []
  | p :: rest =>
      match decodeScoredPoint s p with
      | .error e => .error e
      | .ok doc =>
          match queryLoop s scoreThreshold rest with
          | .error e => .error e
          | .ok docs =>
              if scoreThreshold ≠ 0 ∧ scoreThreshold ≤ p.score then
                .ok (doc :: docs)
              else if scoreThreshold = 0 then
                .ok (doc :: docs)
              else
                .ok docs

/-- `restQuery` from the point where the HTTP exchange has completed and
the body has been decoded: a non-200 status becomes an `APIError`, an
empty raw result set becomes `ErrEmptyResponse`, and otherwise the
result-processing loop runs. -/
def restQuery (s : Store) (statusCode : Nat) (errBody : String)
    (response : QueriesResponse) (scoreThreshold : Rat) :
    Except GoError (List Document) :=
  if statusCode ≠ 200 then
    .error (.apiError "querying index" errBody)
  else if response.result.length = 0 then
    .error .errEmptyResponse
  else
    queryLoop s scoreThreshold response.result

/-- The `scrollResult` wire struct: a page of points plus the optional
`next_page_offset` (a nil pointer models an absent offset). -/
structure ScrollResult where
  points : List UpsertPoint
  nextPageOffset : Option String

/-- The `scrollResponse` wire struct; `result` is a pointer and may be
nil. -/
structure ScrollResponse where
  time : Rat
  status : String
  result : Option ScrollResult

/-- The per-point document reconstruction inside `restScrollPoints`'s
loop; identical to the query-side decode except that no score is
attached (the `Score` field keeps its float32 zero value). -/
def decodeScrollPoint (s : Store) (p : UpsertPoint) : Except GoError Document :=
  match mapLookup p.payload s.contentKey with
  | some (.vstr pageContent) =>
      match mapLookup p.payload s.metadataKey with
      | some (.vmap md) => .ok ⟨pageContent, md, 0⟩
      | _ => .error .panicInterfaceConversion
  | _ => .error .errMissingTextKey

/-- Whether the scroll-side per-point reconstruction succeeds. -/
def scrollDecodeOk (s : Store) (p : UpsertPoint) : Bool :=
  match decodeScrollPoint s p with
  | .ok _ => true
  | .error _ => false

/-- Total projection of a decodable scroll point to its document. -/
def decodedScrollDoc (s : Store) (p : UpsertPoint) : Document :=
  match decodeScrollPoint s p with
  | .ok d => d
  | .error _ => ⟨"", [], 0⟩

/-- The point-decoding loop of `restScrollPoints` (restapi.go lines
305-318): one document per point, in order, aborting on the first
failure. -/
def scrollLoop (s : Store) : List UpsertPoint → Except GoError (List Document)
  | [] => .ok []
  | p :: rest =>
      match decodeScrollPoint s p with
      | .error e => .error e
      | .ok doc =>
          match scrollLoop s rest with
          | .error e => .error e
          | .ok docs => .ok (doc :: docs)

/-- `restScrollPoints` from the point where the HTTP exchange has
completed and the body has been decoded: a non-200 status becomes an
`APIError`; `response.Result.Points` dereferences the possibly-nil
result pointer; on success the documents are paired with the next-page
cursor, which is the empty string when `NextPageOffset` is nil and the
pointed-to string otherwise. -/
def restScrollPoints (s : Store) (statusCode : Nat) (errBody : String)
    (response : ScrollResponse) : Except GoError (List Document × String) :=
  if statusCode ≠ 200 then
    .error (.apiError "scrolling points" errBody)
  else
    match response.result with
    | none => .error .panicNilPointer
    | some r =>
        match scrollLoop s r.points with
        | .error e => .error e
        | .ok docs =>
            .ok (docs, match r.nextPageOffset with
                       | none => ""
                       | some off => off)

/-- The point-ID selection in `restUpsert` (restapi.go lines 56-59):
a fresh UUID `uuids i` unless the metadata map is non-nil and holds a
non-nil value under `"__point_id"`, in which case the single-valued
assertion `.(string)` reuses it — panicking when the value is not a
string.  (Indexing a nil Go map yields nil, so absent map, absent key
and nil value all fall back to the fresh UUID.) -/
def pointID (uuids : Nat → String) (i : Nat) (metadata : GoMap) :
    Except GoError String :=
  match mapLookup metadata "__point_id" with
  | some (.vstr id) => .ok id
  | some .vnull => .ok (uuids i)
  | none => .ok (uuids i)
  | some _ => .error .panicInterfaceConversion

/-- The point-construction loop of `restUpsert` (restapi.go lines
54-65), iterating over `vectors` with index `i` and reading `texts[i]`
and `metadatas[i]`; indexing past the end of either slice is a Go
runtime panic.  The UUID generator is passed explicitly as an injective
stream would be in the source (`uuid.New()`). -/
def encodeLoop (s : Store) (uuids : Nat → String) (texts : List String)
    (metadatas : List GoMap) : Nat → List Vec → Except GoError (List UpsertPoint)
  | _, [] => .ok []
  | i, vec :: rest =>
      match texts[i]?, metadatas[i]? with
      | some text, some metadata =>
          match pointID uuids i metadata with
          | .error e => .error e
          | .ok id =>
              match encodeLoop s uuids texts metadatas (i + 1) rest with
              | .error e => .error e
              | .ok pts =>
                  .ok ({ vector := vec,
                         payload := encodePayload s text metadata,
                         id := id } :: pts)
      | _, _ => .error .panicIndexOutOfRange

/-- The id a successfully encoded point receives: the reused string
under `"__point_id"` when one is present, the fresh UUID otherwise. -/
def idSpec (uuids : Nat → String) (i : Nat) (metadata : GoMap) : String :=
  match mapLookup metadata "__point_id" with
  | some (.vstr id) => id
  | _ => uuids i

/-- Modelled from the spec: the `vectorstores.Options` struct is
referenced by qdrant.go but its defining file is not among the sources;
per §4.2 it carries the per-call score threshold, the pass-through
filter and the optional embedder override. -/
structure VOptions where
  scoreThreshold : Rat
  filters : Option Value
  embedder : Option Embedder

/-- `Store.getEmbedder` (qdrant.go lines 162-167): the per-call override
takes precedence over the store's configured embedder. -/
def getEmbedder (s : Store) (opts : VOptions) : Option Embedder :=
  match opts.embedder with
  | some e => some e
  | none => s.embedder

/-- `getEndpoint` (restapi.go lines 351-361, nested generation): prefix
the path with a slash unless it is empty or already slash-prefixed,
then join base URL, the collections segment, the collection name and
the path. -/
def getEndpoint (baseURL collection path : String) : String :=
  let path := if path ≠ "" ∧ ¬ path.startsWith "/" then "/" ++ path else path
  baseURL ++ "/collections/" ++ collection ++ path

/-- A PUT upsert request as issued by `restUpsert`: the endpoint it is
sent to and the batch of points in its body. -/
structure UpsertRequest where
  endpoint : String
  points : List UpsertPoint

/-- `restUpsert` (restapi.go lines 47-89): encode the batch (a panic in
the encode loop aborts before any request), then PUT the points to
`{baseURL}/collections/{collection}/points`; status 200 yields nil and
any other status the `APIError`.  The first component is the list of
upsert requests actually issued over the wire; the HTTP exchange is
represented, as in `restQuery`, by its resulting status code and error
body. -/
def restUpsert (s : Store) (uuids : Nat → String) (texts : List String)
    (vectors : List Vec) (metadatas : List GoMap) (collection : String)
    (statusCode : Nat) (errBody : String) :
    List UpsertRequest × Except GoError Unit :=
  match encodeLoop s uuids texts metadatas 0 vectors with
  | .error e => ([], .error e)
  | .ok pts =>
      ([{ endpoint := getEndpoint s.baseURL collection "/points", points := pts }],
       if statusCode = 200 then .ok () else .error (.apiError "upserting vectors" errBody))

/-- `Store.AddDocuments` (qdrant.go lines 63-89): extract the texts,
call the (possibly overridden) embedder, return
`ErrEmbedderWrongNumberVectors` when the store's own embedder is not a
`NilEmbedder` and the vector count differs from the document count —
before any request is issued — and otherwise hand the batch to
`restUpsert`.  The first component is the list of upsert requests
issued over the wire. -/
def addDocuments (s : Store) (opts : VOptions) (uuids : Nat → String)
    (docs : List Document) (statusCode : Nat) (errBody : String) :
    List UpsertRequest × Except GoError Unit :=
  let texts := docs.map Document.pageContent
  match embedDocumentsGo (getEmbedder s opts) texts with
  | .error e => ([], .error e)
  | .ok vectors =>
      if ¬ (isNilEmbedder s.embedder = true) ∧ vectors.length ≠ docs.length then
        ([], .error .errEmbedderWrongNumberVectors)
      else
        restUpsert s uuids texts vectors (docs.map Document.metadata)
          s.collectionName statusCode errBody

/-- The functional options of options.go, as the closed set of
constructors the source defines. -/
inductive StoreOption where
  | withEmbedder (e : Embedder)
  | withCollectionConfig (config : GoMap)
  | withContentKey (contentKey : String)
  | withMetadataKey (metadataKey : String)
  | withIndexKeys (indexKeys : List String)
  | withAPIKey (apiKey : String)
  | withBaseURL (baseURL : String)
  | withUseCloud (isCloud : Bool)
  | withCollectionName (collectionName : String)

/-- Application of one functional option to the store under
construction. -/
def applyOpt (st : Store) : StoreOption → Store
  | .withEmbedder e => { st with embedder := some e }
  | .withCollectionConfig config => { st with collectionConfig := config }
  | .withContentKey contentKey => { st with contentKey := contentKey }
  | .withMetadataKey metadataKey => { st with metadataKey := metadataKey }
  | .withIndexKeys indexKeys => { st with indexKeys := indexKeys }
  | .withAPIKey apiKey => { st with apiKey := apiKey }
  | .withBaseURL baseURL => { st with baseURL := baseURL }
  | .withUseCloud isCloud => { st with useCloud := isCloud }
  | .withCollectionName collectionName => { st with collectionName := collectionName }

/-- Does an option set the embedder field? -/
def setsEmbedder : StoreOption → Bool
  | .withEmbedder _ => true
  | _ => false

/-- Does an option set the base URL field? -/
def setsBaseURL : StoreOption → Bool
  | .withBaseURL _ => true
  | _ => false

/-- `_defaultCollectionConfig` of options.go. -/
def defaultCollectionConfig : GoMap :=
  [("optimizers_config", .vmap [("memmap_threshold", .vint 10000)]),
   ("vectors", .vmap [("size", .vint 1536), ("distance", .vstr "Cosine")]),
   ("on_disk_payload", .vbool true)]

/-- The store literal `applyClientOptions` starts from: default content
and metadata keys and the default collection config, everything else
zero. -/
def initialStore : Store :=
  { embedder := none, useCloud := false, apiKey := "", baseURL := "",
    collectionName := "", contentKey := "page_content",
    metadataKey := "metadata", indexKeys := [],
    collectionConfig := defaultCollectionConfig }

/-- Go's zero `Store{}` value, returned alongside every validation
error. -/
def zeroStore : Store :=
  { embedder := none, useCloud := false, apiKey := "", baseURL := "",
    collectionName := "", contentKey := "", metadataKey := "",
    indexKeys := [], collectionConfig := [] }

/-- The validation errors of `applyClientOptions`; each one wraps
`ErrInvalidOptions` via `fmt.Errorf("%w: ...", ErrInvalidOptions)`. -/
inductive ConfigError where
  | missingEmbedder
  | missingAPIKey
  | missingBaseURL
  | missingCollectionName
deriving DecidableEq

/-- `os.Getenv`: the empty string models an absent variable. -/
abbrev Env := String → String

/-- The validation tail of `applyClientOptions` (options.go lines
117-147), applied to the store obtained from the options: missing
embedder, missing API key (cloud only, after the environment
fallback), missing base URL (after the environment fallback), missing
collection name; every failure returns the zero store with an
`ErrInvalidOptions`-wrapped error. -/
def validateStore (o : Store) (env : Env) : Store × Option ConfigError :=
  if o.embedder.isNone then (zeroStore, some .missingEmbedder)
  else
    let o1 := if o.apiKey = "" then { o with apiKey := env "QDRANT_API_KEY" } else o
    if o1.useCloud ∧ o1.apiKey = "" then (zeroStore, some .missingAPIKey)
    else
      let o2 := if o1.baseURL = "" then { o1 with baseURL := env "QDRANT_BASE_URL" } else o1
      if o2.baseURL = "" then (zeroStore, some .missingBaseURL)
      else if o2.collectionName = "" then (zeroStore, some .missingCollectionName)
      else (o2, none)

/-- `applyClientOptions` (options.go lines 106-148): fold the options
over the initial store, then validate. -/
def applyClientOptions (opts : List StoreOption) (env : Env) :
    Store × Option ConfigError :=
  validateStore (opts.foldl applyOpt initialStore) env

/-- A provisioning network request issued by `New`. -/
inductive ProvisionCall where
  | createCollection (name : String)
  | indexMetadataKey (collection : String) (key : String)
deriving DecidableEq

/-- `New` (qdrant.go lines 47-59) together with the list of
provisioning requests it issues: on a validation error it returns the
zero store and the error before any network call; on success it issues
the collection-creation request and one metadata-index request per
declared index key, and returns the configured store with a nil
error. -/
def new (opts : List StoreOption) (env : Env) :
    (Store × Option ConfigError) × List ProvisionCall :=
  match applyClientOptions opts env with
  | (_, some e) => ((zeroStore, some e), [])
  | (s, none) =>
      ((s, none),
       .createCollection s.collectionName ::
         s.indexKeys.map (ProvisionCall.indexMetadataKey s.collectionName))

/-- `New`, additionally parameterised by the outcomes of the
collection-creation request and the metadata-index requests.  The
source discards both return values (`s.restNewCollection(...)` and
`s.restIndexMetadataKey(...)` are called without binding their
errors), so the outcomes do not influence the result. -/
def newWithOutcomes (opts : List StoreOption) (env : Env)
    (_collectionOutcome : Option GoError)
    (_indexOutcomes : List (Option GoError)) : Store × Option ConfigError :=
  match applyClientOptions opts env with
  | (_, some e) => (zeroStore, some e)
  | (s, none) => (s, none)

/-- Whether a payload holds a string under the store's content key
(the two-valued `.(string)` assertion of the decode loops). -/
def hasStringContent (s : Store) (p : ScoredPoint) : Bool :=
  match mapLookup p.payload s.contentKey with
  | some (.vstr _) => true
  | _ => false

/-- Whether a payload holds a mapping under the store's metadata key
(the single-valued `.(map[string]any)` assertion of the decode loops). -/
def hasMapMetadata (s : Store) (p : ScoredPoint) : Bool :=
  match mapLookup p.payload s.metadataKey with
  | some (.vmap _) => true
  | _ => false

/-- Whether a scroll point's payload holds a string under the store's
content key (the two-valued `.(string)` assertion of the scroll decode
loop). -/
def scrollHasStringContent (s : Store) (q : UpsertPoint) : Bool :=
  match mapLookup q.payload s.contentKey with
  | some (.vstr _) => true
  | _ => false

/-- The reusable point id carried by a metadata map, when the value
under `"__point_id"` is a string. -/
def reusedID (metadata : GoMap) : Option String :=
  match mapLookup metadata "__point_id" with
  | some (.vstr id) => some id
  | _ => none

/- Concrete inputs used by the witness and counterexample theorems. -/

/-- A deterministic stand-in for the `uuid.New()` stream. -/
def exUuids : Nat → String := fun i => "uuid-" ++ toString i

/-- A sample caller document. -/
def docTokyo : Document := { pageContent := "Tokyo", metadata := [("country", .vstr "Japan")], score := 0 }

/-- A decodable scored point with score 0. -/
def pLow : ScoredPoint :=
  { id := "p1", version := 0, score := 0,
    payload := encodePayload initialStore "low" [], vector := [] }

/-- A decodable scored point with score 1. -/
def pHigh : ScoredPoint :=
  { id := "p2", version := 0, score := 1,
    payload := encodePayload initialStore "high" [], vector := [] }

/-- A scored point whose payload lacks the content key. -/
def pBad : ScoredPoint :=
  { id := "p3", version := 0, score := 1,
    payload := [("metadata", .vmap [])], vector := [] }

/-- A scored point with a string content value but no metadata key. -/
def pNoMeta : ScoredPoint :=
  { id := "p4", version := 0, score := 1,
    payload := [("page_content", .vstr "x")], vector := [] }

/-- A fully decodable scored point with both reserved keys. -/
def pWithMeta : ScoredPoint :=
  { id := "p5", version := 0, score := 1,
    payload := encodePayload initialStore "x" [("k", .vstr "v")], vector := [] }

/-- An embedder that always returns zero vectors. -/
def emptyEmbedder : Embedder := .custom (fun _ => .ok []) (fun _ => .error "no query embedding")

/-- A store configured with the `NilEmbedder`. -/
def storeNilEmbedder : Store :=
  { initialStore with
    embedder := some Embedder.nilEmbedder
    baseURL := "http://localhost:6333"
    collectionName := "c" }

/-- A store configured with the zero-vector custom embedder. -/
def storeCustomEmpty : Store :=
  { initialStore with
    embedder := some emptyEmbedder
    baseURL := "http://localhost:6333"
    collectionName := "c" }

/-- Call options carrying an embedder override. -/
def optsOverride : VOptions := { scoreThreshold := 0, filters := none, embedder := some emptyEmbedder }

/-- Call options with no overrides. -/
def optsNone : VOptions := { scoreThreshold := 0, filters := none, embedder := none }

/-- Metadata carrying a reusable string point id. -/
def mdKeep : GoMap := [("__point_id", .vstr "keep")]

/-- Metadata carrying a non-string value under the reserved point-id
key. -/
def mdBadID : GoMap := [("__point_id", .vint 5)]

/-- Texts of the two-point upsert batch. -/
def c7texts : List String := ["a", "b"]

/-- Metadatas of the two-point upsert batch: the first reuses an id,
the second does not. -/
def c7metadatas : List GoMap := [mdKeep, []]

/-- Vectors of the two-point upsert batch. -/
def c7vectors : List Vec := [[1], [2]]

/-- The points the two-point batch encodes to. -/
def c7pts : List UpsertPoint :=
  [{ vector := [1], payload := encodePayload initialStore "a" mdKeep, id := "keep" },
   { vector := [2], payload := encodePayload initialStore "b" [], id := exUuids 1 }]

/-- An environment with every variable unset. -/
def envEmpty : Env := fun _ => ""

/-- A valid option list: embedder, base URL and collection name. -/
def optsC8 : List StoreOption :=
  [.withEmbedder .nilEmbedder, .withBaseURL "http://localhost:6333", .withCollectionName "c"]

/-- The store `optsC8` constructs. -/
def storeC8 : Store :=
  { embedder := some .nilEmbedder, useCloud := false, apiKey := "",
    baseURL := "http://localhost:6333", collectionName := "c",
    contentKey := "page_content", metadataKey := "metadata",
    indexKeys := [], collectionConfig := defaultCollectionConfig }

/-- A scroll point whose payload lacks the content key. -/
def scrollPtBad : UpsertPoint :=
  { vector := [1], payload := [("metadata", .vmap [])], id := "idb" }

/-- A scroll response containing only the undecodable point. -/
def scrollRespBad : ScrollResponse :=
  { time := 0, status := "ok", result := some { points := [scrollPtBad], nextPageOffset := none } }

/-- A decodable scroll point. -/
def scrollPt : UpsertPoint :=
  { vector := [1], payload := encodePayload initialStore "x" [("k", .vstr "v")], id := "id1" }

/-- A scroll response whose next-page offset is a pointer to the empty
string. -/
def scrollRespEmptyOff : ScrollResponse :=
  { time := 0, status := "ok", result := some { points := [], nextPageOffset := some "" } }

/-- A scroll response with one point and a non-empty next-page
offset. -/
def scrollRespNext : ScrollResponse :=
  { time := 0, status := "ok", result := some { points := [scrollPt], nextPageOffset := some "cursor-2" } }

/-! ## Theorems -/

/-- Claim C1: round-trip of the payload codec — decoding the point
produced by encoding a document's content and metadata (content under
the content key, metadata under the metadata key) yields a document
with the same content and all metadata keys and values preserved, the
score being taken from the point; the hypothesis rules out the
collision of the two reserved keys (with equal keys the later
map-literal entry overwrites the earlier one). -/
theorem c1_payload_roundtrip (s : Store) (d : Document) (vec : Vec)
    (id : String) (version : Int) (sc : Rat)
    (h : s.contentKey ≠ s.metadataKey) :
    decodeScoredPoint s
      { id := id, version := version, score := sc,
        payload := encodePayload s d.pageContent d.metadata, vector := vec } =
    .ok { pageContent := d.pageContent, metadata := d.metadata, score := sc } := by
  simp [decodeScoredPoint, encodePayload, mapInsert, mapLookup, h, Ne.symm h]

/-- Witness for C1 at the default key scheme and a concrete document. -/
theorem c1_payload_roundtrip_witness :
    decodeScoredPoint initialStore
      { id := "id0", version := 1, score := 1,
        payload := encodePayload initialStore "Tokyo" [("country", .vstr "Japan")],
        vector := [1] } =
    .ok { pageContent := "Tokyo", metadata := [("country", .vstr "Japan")], score := 1 } :=
  c1_payload_roundtrip initialStore
    { pageContent := "Tokyo", metadata := [("country", .vstr "Japan")], score := 0 }
    [1] "id0" 1 1 (by decide)

/-- Any error of the per-point decode is the missing-text-key sentinel
or the metadata type-assertion panic. -/
theorem decodeScoredPoint_error_cases (s : Store) (p : ScoredPoint) (e : GoError)
    (h : decodeScoredPoint s p = .error e) :
    e = .errMissingTextKey ∨ e = .panicInterfaceConversion := by
  unfold decodeScoredPoint at h
  split at h
  · split at h
    · exact absurd h (by simp)
    · injection h with h
      exact Or.inr h.symm
  · injection h with h
    exact Or.inl h.symm

/-- The result-processing loop never produces `ErrEmptyResponse`. -/
theorem queryLoop_ne_emptyResponse (s : Store) (t : Rat) (l : List ScoredPoint) :
    queryLoop s t l ≠ .error .errEmptyResponse := by
  induction l with
  | nil => simp [queryLoop]
  | cons p rest ih =>
      simp only [queryLoop]
      cases hd : decodeScoredPoint s p with
      | error e =>
          rcases decodeScoredPoint_error_cases s p e hd with h | h <;> simp [h]
      | ok doc =>
          cases hr : queryLoop s t rest with
          | error e =>
              intro hc
              injection hc with hc
              rw [hc] at hr
              exact ih hr
          | ok docs =>
              split
              · rename_i e heq
                exact absurd heq (by simp)
              · split
                · rename_i e heq
                  exact absurd heq (by simp)
                · split
                  · simp
                  · split <;> simp


/-- When every point decodes, the result-processing loop returns, in
index order, exactly the documents of the points kept by the threshold
predicate `t = 0 ∨ t ≤ score`. -/
theorem queryLoop_eq_filter (s : Store) (t : Rat) (l : List ScoredPoint)
    (hdec : ∀ p ∈ l, decodeOk s p = true) :
    queryLoop s t l =
      .ok ((l.filter fun p => decide (t = 0) || decide (t ≤ p.score)).map (decodedDoc s)) := by
  induction l with
  | nil => simp [queryLoop]
  | cons p rest ih =>
      have hp : decodeOk s p = true := hdec p (List.mem_cons_self p rest)
      have hrest : ∀ q ∈ rest, decodeOk s q = true :=
        fun q hq => hdec q (List.mem_cons_of_mem p hq)
      obtain ⟨d, hd⟩ : ∃ d, decodeScoredPoint s p = .ok d := by
        unfold decodeOk at hp
        cases h : decodeScoredPoint s p with
        | ok d => exact ⟨d, rfl⟩
        | error e => rw [h] at hp; simp at hp
      have hdoc : decodedDoc s p = d := by unfold decodedDoc; rw [hd]
      simp only [queryLoop, hd, ih hrest]
      by_cases ht : t = 0
      · subst ht
        simp [List.filter_cons, hdoc]
      · by_cases hs : t ≤ p.score
        · simp [List.filter_cons, ht, hs, hdoc]
        · simp [List.filter_cons, ht, hs, hdoc]

/-- Claim C2: for a similarity query whose exchange succeeded with
status 200 (and whose body decoded), the operation returns
`ErrEmptyResponse` exactly when the raw result set is empty; and when
the raw result set is non-empty, every point decodes, and a non-zero
threshold exceeds every score, the operation returns the empty
document sequence with no error. -/
theorem c2_empty_response (s : Store) (body : String) (resp : QueriesResponse) (t : Rat) :
    (restQuery s 200 body resp t = .error .errEmptyResponse ↔ resp.result = []) ∧
    (resp.result ≠ [] → t ≠ 0 →
      (∀ p ∈ resp.result, decodeOk s p = true) →
      (∀ p ∈ resp.result, p.score < t) →
      restQuery s 200 body resp t = .ok []) := by
  constructor
  · constructor
    · intro h
      by_contra hne
      have hlen : resp.result.length ≠ 0 := by
        simpa [List.length_eq_zero] using hne
      rw [show restQuery s 200 body resp t = queryLoop s t resp.result from by
            simp [restQuery, hlen]] at h
      exact queryLoop_ne_emptyResponse s t resp.result h
    · intro h
      simp [restQuery, h]
  · intro hne ht hdec hscore
    have hq := queryLoop_eq_filter s t resp.result hdec
    have hfil : resp.result.filter (fun p => decide (t = 0) || decide (t ≤ p.score)) = [] := by
      rw [List.filter_eq_nil_iff]
      intro p hp
      simp [ht, not_le.mpr (hscore p hp)]
    have hlen : resp.result.length ≠ 0 := by
      simpa [List.length_eq_zero] using hne
    simp [restQuery, hlen, hq, hfil]

/-- Witness for C2: one decodable point with score 0 against threshold
1 yields the empty sequence with no error. -/
theorem c2_empty_response_witness :
    restQuery initialStore 200 "" { time := 0, status := "ok", result := [pLow] } 1 = .ok [] :=
  (c2_empty_response initialStore "" { time := 0, status := "ok", result := [pLow] } 1).2
    (List.cons_ne_nil pLow []) (by decide) (by decide) (by decide)

/-- Claim C3: threshold post-processing — for a non-empty raw result
set, a threshold in `[0,1]` and fully decodable points, a point is
kept exactly when the threshold is zero or its score reaches the
threshold, the kept documents appearing in index order; with threshold
zero every decoded result is returned unfiltered. -/
theorem c3_threshold_filter (s : Store) (body : String) (resp : QueriesResponse) (t : Rat)
    (hne : resp.result ≠ []) (h0 : 0 ≤ t) (h1 : t ≤ 1)
    (hdec : ∀ p ∈ resp.result, decodeOk s p = true) :
    restQuery s 200 body resp t =
      .ok ((resp.result.filter fun p => decide (t = 0) || decide (t ≤ p.score)).map (decodedDoc s)) ∧
    (t = 0 → restQuery s 200 body resp t = .ok (resp.result.map (decodedDoc s))) := by
  have hlen : resp.result.length ≠ 0 := by
    simpa [List.length_eq_zero] using hne
  have hq := queryLoop_eq_filter s t resp.result hdec
  constructor
  · simp [restQuery, hlen, hq]
  · intro ht
    subst ht
    simp [restQuery, hlen, hq]

/-- Witness for C3 at threshold 1 over one passing and one failing
point: only the passing point's document is returned, and the filtered
form agrees with the loop. -/
theorem c3_threshold_filter_witness :
    restQuery initialStore 200 "" { time := 0, status := "ok", result := [pHigh, pLow] } 1 =
      .ok (([pHigh, pLow].filter fun p => decide ((1 : Rat) = 0) || decide ((1 : Rat) ≤ p.score)).map
            (decodedDoc initialStore)) :=
  (c3_threshold_filter initialStore "" { time := 0, status := "ok", result := [pHigh, pLow] } 1
    (List.cons_ne_nil pHigh [pLow]) (by decide) (by decide) (by decide)).1

/-- A point without a string content value never decodes to a
document. -/
theorem decode_not_ok_of_no_content (s : Store) (p : ScoredPoint)
    (h : hasStringContent s p = false) :
    ∀ d, decodeScoredPoint s p ≠ .ok d := by
  intro d
  unfold hasStringContent at h
  unfold decodeScoredPoint
  split
  · rename_i pc heq
    rw [heq] at h
    simp at h
  · simp

/-- A response containing an undecodable point is never answered with a
document list by the result-processing loop. -/
theorem queryLoop_not_ok_of_bad (s : Store) (t : Rat) (p : ScoredPoint)
    (hbad : ∀ d, decodeScoredPoint s p ≠ .ok d) :
    ∀ l, p ∈ l → ∀ docs, queryLoop s t l ≠ .ok docs := by
  intro l
  induction l with
  | nil => intro h; cases h
  | cons q rest ih =>
      intro hp docs
      simp only [queryLoop]
      cases hq : decodeScoredPoint s q with
      | error e => simp
      | ok d =>
          cases hr : queryLoop s t rest with
          | error e => simp
          | ok docs' =>
              rcases List.mem_cons.mp hp with h | hmem
              · subst h
                exact absurd hq (hbad d)
              · exact absurd hr (ih hmem docs')

/-- When the content value is the string `c`, the per-point decode
reduces to the metadata type assertion. -/
theorem decodeScoredPoint_content_eq (s : Store) (p : ScoredPoint) (c : String)
    (hc : mapLookup p.payload s.contentKey = some (.vstr c)) :
    decodeScoredPoint s p =
      (match mapLookup p.payload s.metadataKey with
       | some (.vmap md) => .ok ⟨c, md, p.score⟩
       | _ => .error .panicInterfaceConversion) := by
  unfold decodeScoredPoint
  rw [hc]

/-- A scroll point without a string content value never decodes to a
document. -/
theorem scroll_decode_not_ok_of_no_content (s : Store) (q : UpsertPoint)
    (h : scrollHasStringContent s q = false) :
    ∀ d, decodeScrollPoint s q ≠ .ok d := by
  intro d
  unfold scrollHasStringContent at h
  unfold decodeScrollPoint
  split
  · rename_i pc heq
    rw [heq] at h
    simp at h
  · simp

/-- A scroll page containing an undecodable point is never answered
with a document list by the scroll loop. -/
theorem scrollLoop_not_ok_of_bad (s : Store) (q : UpsertPoint)
    (hbad : ∀ d, decodeScrollPoint s q ≠ .ok d) :
    ∀ l, q ∈ l → ∀ docs, scrollLoop s l ≠ .ok docs := by
  intro l
  induction l with
  | nil => intro h; cases h
  | cons p rest ih =>
      intro hq docs
      simp only [scrollLoop]
      cases hp : decodeScrollPoint s p with
      | error e => simp
      | ok d =>
          cases hr : scrollLoop s rest with
          | error e => simp
          | ok docs' =>
              rcases List.mem_cons.mp hq with h | hmem
              · subst h
                exact absurd hp (hbad d)
              · exact absurd hr (ih hmem docs')

/-- When the content value is the string `c`, the scroll-side per-point
decode reduces to the metadata type assertion. -/
theorem decodeScrollPoint_content_eq (s : Store) (q : UpsertPoint) (c : String)
    (hc : mapLookup q.payload s.contentKey = some (.vstr c)) :
    decodeScrollPoint s q =
      (match mapLookup q.payload s.metadataKey with
       | some (.vmap md) => .ok ⟨c, md, 0⟩
       | _ => .error .panicInterfaceConversion) := by
  unfold decodeScrollPoint
  rw [hc]

/-- Claim C5: for a point of a query or scroll response, if the
payload value under the content key is absent or not a string, the
per-point decode fails with `ErrMissingTextKey`, and no document list
is returned for the whole response; if it is a string, that string
becomes the document's content.  The first three conjuncts cover the
query path, the last three the scroll path. -/
theorem c5_missing_content_key (s : Store) (p : ScoredPoint) (q : UpsertPoint) :
    (hasStringContent s p = false →
       decodeScoredPoint s p = .error .errMissingTextKey) ∧
    (∀ c, mapLookup p.payload s.contentKey = some (.vstr c) →
       ∀ d, decodeScoredPoint s p = .ok d → d.pageContent = c) ∧
    (∀ body resp t docs, p ∈ resp.result → hasStringContent s p = false →
       restQuery s 200 body resp t ≠ .ok docs) ∧
    (scrollHasStringContent s q = false →
       decodeScrollPoint s q = .error .errMissingTextKey) ∧
    (∀ c, mapLookup q.payload s.contentKey = some (.vstr c) →
       ∀ d, decodeScrollPoint s q = .ok d → d.pageContent = c) ∧
    (∀ body resp r docs cur, resp.result = some r → q ∈ r.points →
       scrollHasStringContent s q = false →
       restScrollPoints s 200 body resp ≠ .ok (docs, cur)) := by
  refine ⟨?_, ?_, ?_, ?_, ?_, ?_⟩
  · intro h
    unfold hasStringContent at h
    unfold decodeScoredPoint
    split
    · rename_i pc heq
      rw [heq] at h
      simp at h
    · rfl
  · intro c hc d hd
    rw [decodeScoredPoint_content_eq s p c hc] at hd
    split at hd
    · injection hd with hd
      subst hd
      rfl
    · exact Except.noConfusion hd
  · intro body resp t docs hp h
    have hbad := decode_not_ok_of_no_content s p h
    by_cases hlen : resp.result.length = 0
    · simp [restQuery, hlen]
    · rw [show restQuery s 200 body resp t = queryLoop s t resp.result from by
            simp [restQuery, hlen]]
      exact queryLoop_not_ok_of_bad s t p hbad resp.result hp docs
  · intro h
    unfold scrollHasStringContent at h
    unfold decodeScrollPoint
    split
    · rename_i pc heq
      rw [heq] at h
      simp at h
    · rfl
  · intro c hc d hd
    rw [decodeScrollPoint_content_eq s q c hc] at hd
    split at hd
    · injection hd with hd
      subst hd
      rfl
    · exact Except.noConfusion hd
  · intro body resp r docs cur hr hq h
    have hbad := scroll_decode_not_ok_of_no_content s q h
    rw [show restScrollPoints s 200 body resp =
          (match scrollLoop s r.points with
           | .error e => .error e
           | .ok ds => .ok (ds, match r.nextPageOffset with
                                | none => ""
                                | some off => off)) from by
          simp [restScrollPoints, hr]]
    cases hl : scrollLoop s r.points with
    | error e => simp
    | ok ds => exact absurd hl (scrollLoop_not_ok_of_bad s q hbad r.points hq ds)

/-- Witness for C5: the points `pBad` (query) and `scrollPtBad`
(scroll) lack the content key, their decodes fail with the
missing-text-key error, and responses containing them are not answered
with documents; the points `pLow` and `scrollPt` have string contents
`"low"` and `"x"`, which become their documents' contents. -/
theorem c5_missing_content_key_witness :
    decodeScoredPoint initialStore pBad = .error .errMissingTextKey ∧
    restQuery initialStore 200 "" { time := 0, status := "ok", result := [pBad] } 0 ≠ .ok [] ∧
    (decodedDoc initialStore pLow).pageContent = "low" ∧
    decodeScrollPoint initialStore scrollPtBad = .error .errMissingTextKey ∧
    (decodedScrollDoc initialStore scrollPt).pageContent = "x" ∧
    restScrollPoints initialStore 200 "" scrollRespBad ≠ .ok ([], "") :=
  have h := c5_missing_content_key initialStore pBad scrollPtBad
  have h2 := c5_missing_content_key initialStore pLow scrollPt
  ⟨h.1 (by decide),
   h.2.2.1 "" { time := 0, status := "ok", result := [pBad] } 0 []
     (List.mem_cons_self pBad []) (by decide),
   h2.2.1 "low" rfl (decodedDoc initialStore pLow) rfl,
   h.2.2.2.1 (by decide),
   h2.2.2.2.2.1 "x" rfl (decodedScrollDoc initialStore scrollPt) rfl,
   h.2.2.2.2.2 "" scrollRespBad
     { points := [scrollPtBad], nextPageOffset := none } [] "" rfl
     (List.mem_cons_self scrollPtBad []) (by decide)⟩

/-- Claim C10 counterexample: the point `pNoMeta` holds the string
`"x"` under the content key but carries no metadata key, and building
its document fails with the metadata type-assertion panic — also at
the whole-response level reached from `SimilaritySearch` — refuting
the claim that the unchecked assertion always succeeds. -/
theorem c10_counterexample :
    mapLookup pNoMeta.payload initialStore.contentKey = some (.vstr "x") ∧
    decodeScoredPoint initialStore pNoMeta = .error .panicInterfaceConversion ∧
    restQuery initialStore 200 "" { time := 0, status := "ok", result := [pNoMeta] } 0 =
      .error .panicInterfaceConversion :=
  ⟨rfl, rfl, rfl⟩

/-- Claim C10 (amended): for a point whose content value is a string,
building the document succeeds exactly when the payload holds a
mapping under the metadata key; when it does not (absent, null or
non-mapping value), the unchecked type assertion panics, so decoding is
not total in the metadata field. -/
theorem c10_metadata_assertion (s : Store) (p : ScoredPoint) (c : String)
    (hc : mapLookup p.payload s.contentKey = some (.vstr c)) :
    (∀ md, mapLookup p.payload s.metadataKey = some (.vmap md) →
       decodeScoredPoint s p = .ok ⟨c, md, p.score⟩) ∧
    (hasMapMetadata s p = false →
       decodeScoredPoint s p = .error .panicInterfaceConversion) := by
  constructor
  · intro md hm
    rw [decodeScoredPoint_content_eq s p c hc, hm]
  · intro h
    unfold hasMapMetadata at h
    rw [decodeScoredPoint_content_eq s p c hc]
    split
    · rename_i md hm
      rw [hm] at h
      simp at h
    · rfl

/-- Witness for C10 (amended): `pWithMeta` decodes to its document,
and `pNoMeta` panics. -/
theorem c10_metadata_assertion_witness :
    decodeScoredPoint initialStore pWithMeta = .ok ⟨"x", [("k", .vstr "v")], 1⟩ ∧
    decodeScoredPoint initialStore pNoMeta = .error .panicInterfaceConversion :=
  ⟨(c10_metadata_assertion initialStore pWithMeta "x" rfl).1 [("k", .vstr "v")] rfl,
   (c10_metadata_assertion initialStore pNoMeta "x" rfl).2 (by decide)⟩

/-- When every point decodes, the scroll loop returns one document per
point, in index order. -/
theorem scrollLoop_eq_map (s : Store) (l : List UpsertPoint)
    (hdec : ∀ p ∈ l, scrollDecodeOk s p = true) :
    scrollLoop s l = .ok (l.map (decodedScrollDoc s)) := by
  induction l with
  | nil => simp [scrollLoop]
  | cons p rest ih =>
      have hp : scrollDecodeOk s p = true := hdec p (List.mem_cons_self p rest)
      have hrest : ∀ q ∈ rest, scrollDecodeOk s q = true :=
        fun q hq => hdec q (List.mem_cons_of_mem p hq)
      obtain ⟨d, hd⟩ : ∃ d, decodeScrollPoint s p = .ok d := by
        unfold scrollDecodeOk at hp
        cases h : decodeScrollPoint s p with
        | ok d => exact ⟨d, rfl⟩
        | error e => rw [h] at hp; simp at hp
      have hdoc : decodedScrollDoc s p = d := by unfold decodedScrollDoc; rw [hd]
      simp [scrollLoop, hd, ih hrest, hdoc]

/-- Claim C9 counterexample: a 200 scroll response whose
`next_page_offset` is a pointer to the empty string — the response
carries a next-page offset, yet the returned cursor is the empty
string, refuting "the returned cursor is the empty string exactly when
the response carries no next-page offset". -/
theorem c9_counterexample :
    scrollRespEmptyOff.result = some { points := [], nextPageOffset := some "" } ∧
    restScrollPoints initialStore 200 "" scrollRespEmptyOff = .ok ([], "") :=
  ⟨rfl, rfl⟩

/-- Claim C9 (amended): for a 200 scroll response with a non-nil
result whose points all decode, the operation returns one decoded
document per point, in index order, together with the next-page
cursor; the cursor is the empty string exactly when the response
carries no next-page offset or carries the empty string as its
offset. -/
theorem c9_scroll_page (s : Store) (body : String) (resp : ScrollResponse)
    (r : ScrollResult) (hr : resp.result = some r)
    (hdec : ∀ p ∈ r.points, scrollDecodeOk s p = true) :
    restScrollPoints s 200 body resp =
      .ok (r.points.map (decodedScrollDoc s), r.nextPageOffset.getD "") ∧
    (r.nextPageOffset.getD "" = "" ↔
      (r.nextPageOffset = none ∨ r.nextPageOffset = some "")) := by
  constructor
  · have hl := scrollLoop_eq_map s r.points hdec
    simp only [restScrollPoints, hr, hl]
    cases hnp : r.nextPageOffset <;> simp
  · cases hnp : r.nextPageOffset with
    | none => simp
    | some off => simp [eq_comm]

/-- Witness for C9 (amended): a one-point page with offset
`"cursor-2"` yields that point's document and the non-empty cursor. -/
theorem c9_scroll_page_witness :
    restScrollPoints initialStore 200 "" scrollRespNext =
      .ok ([scrollPt].map (decodedScrollDoc initialStore), (some "cursor-2").getD "") ∧
    ((some "cursor-2" : Option String).getD "" = "" ↔
      ((some "cursor-2" : Option String) = none ∨ (some "cursor-2" : Option String) = some "")) :=
  c9_scroll_page initialStore "" scrollRespNext
    { points := [scrollPt], nextPageOffset := some "cursor-2" } rfl (by decide)

/-- A successful point-id selection yields exactly the reused string
or the fresh UUID. -/
theorem pointID_ok_eq (uuids : Nat → String) (i : Nat) (metadata : GoMap) (id : String)
    (h : pointID uuids i metadata = .ok id) :
    id = idSpec uuids i metadata := by
  unfold pointID at h
  unfold idSpec
  cases hm : mapLookup metadata "__point_id" with
  | none => simp_all
  | some v => cases v <;> simp_all

/-- Without a reusable string id, the selected id is the fresh UUID. -/
theorem idSpec_eq_of_fresh (uuids : Nat → String) (i : Nat) (md : GoMap)
    (h : reusedID md = none) : idSpec uuids i md = uuids i := by
  unfold reusedID at h
  unfold idSpec
  cases hm : mapLookup md "__point_id" with
  | none => rfl
  | some v => cases v <;> simp_all

/-- The encode loop of `restUpsert`, characterised: a successful batch
has one point per vector, and the point at index `j` (with the loop
started at index `k`) carries the id `idSpec` prescribes for its
metadata. -/
theorem encodeLoop_spec (s : Store) (uuids : Nat → String) (texts : List String)
    (metadatas : List GoMap) :
    ∀ (vectors : List Vec) (k : Nat) (pts : List UpsertPoint),
      encodeLoop s uuids texts metadatas k vectors = .ok pts →
      pts.length = vectors.length ∧
      ∀ j mdj, j < vectors.length → metadatas[k + j]? = some mdj →
        pts[j]?.map UpsertPoint.id = some (idSpec uuids (k + j) mdj)
  | [], k, pts, h => by
      simp only [encodeLoop] at h
      injection h with h
      subst h
      exact ⟨rfl, fun j mdj hj _ => absurd hj (by simp)⟩
  | vec :: rest, k, pts, h => by
      simp only [encodeLoop] at h
      split at h
      · rename_i text metadata htext hmd
        split at h
        · exact Except.noConfusion h
        · rename_i id hid
          split at h
          · exact Except.noConfusion h
          · rename_i pts' hrec
            injection h with h
            subst h
            obtain ⟨hlen, hids⟩ :=
              encodeLoop_spec s uuids texts metadatas rest (k + 1) pts' hrec
            refine ⟨by simp [hlen], ?_⟩
            intro j mdj hj hmdj
            cases j with
            | zero =>
                rw [Nat.add_zero] at hmdj ⊢
                rw [hmd] at hmdj
                injection hmdj with hmdj
                subst hmdj
                simpa using pointID_ok_eq uuids k metadata id hid
            | succ j' =>
                have hj' : j' < rest.length := by
                  simpa using Nat.lt_of_succ_lt_succ (by simpa using hj)
                have harith : k + (j' + 1) = (k + 1) + j' := by omega
                rw [harith] at hmdj ⊢
                simpa using hids j' mdj hj' hmdj
      · exact Except.noConfusion h

/-- Claim C7 counterexample: a batch whose single document carries the
non-nil, non-string value `5` under `"__point_id"` — instead of
assigning that value as the point id, the encode panics on the
`.(string)` type assertion and produces no points, refuting the claim
for non-string values. -/
theorem c7_counterexample :
    mapLookup mdBadID "__point_id" = some (.vint 5) ∧
    encodeLoop initialStore exUuids ["t"] [mdBadID] 0 [[1]] =
      .error .panicInterfaceConversion :=
  ⟨rfl, rfl⟩

/-- Claim C7 (amended): in a successfully encoded batch, the point at
index `i` is assigned the string found under the reserved
`"__point_id"` metadata field when one is present (a non-string,
non-nil value panics instead, so it never occurs in a successful
batch), and every other point receives the freshly generated UUID for
its index — pairwise distinct whenever the generator is injective. -/
theorem c7_point_id_reuse (s : Store) (uuids : Nat → String) (texts : List String)
    (metadatas : List GoMap) (vectors : List Vec) (pts : List UpsertPoint)
    (henc : encodeLoop s uuids texts metadatas 0 vectors = .ok pts) :
    pts.length = vectors.length ∧
    (∀ i mdi, i < vectors.length → metadatas[i]? = some mdi →
       pts[i]?.map UpsertPoint.id = some (idSpec uuids i mdi)) ∧
    (Function.Injective uuids →
       ∀ i j mdi mdj, i < vectors.length → j < vectors.length → i ≠ j →
         metadatas[i]? = some mdi → metadatas[j]? = some mdj →
         reusedID mdi = none → reusedID mdj = none →
         pts[i]?.map UpsertPoint.id ≠ pts[j]?.map UpsertPoint.id) := by
  obtain ⟨hlen, hids⟩ := encodeLoop_spec s uuids texts metadatas vectors 0 pts henc
  have hat : ∀ i mdi, i < vectors.length → metadatas[i]? = some mdi →
      pts[i]?.map UpsertPoint.id = some (idSpec uuids i mdi) := by
    intro i mdi hi hm
    simpa using hids i mdi hi (by simpa using hm)
  refine ⟨hlen, hat, ?_⟩
  intro hinj i j mdi mdj hi hj hne hmi hmj hri hrj
  rw [hat i mdi hi hmi, hat j mdj hj hmj,
      idSpec_eq_of_fresh uuids i mdi hri, idSpec_eq_of_fresh uuids j mdj hrj]
  intro hc
  injection hc with hc
  exact hne (hinj hc)

/-- Witness for C7 (amended): in the two-point batch, the first point
reuses the id `"keep"` carried by its metadata and the second receives
the generated `exUuids 1`. -/
theorem c7_point_id_reuse_witness :
    c7pts[0]?.map UpsertPoint.id = some (idSpec exUuids 0 mdKeep) ∧
    c7pts[1]?.map UpsertPoint.id = some (idSpec exUuids 1 []) :=
  have h := c7_point_id_reuse initialStore exUuids c7texts c7metadatas c7vectors c7pts rfl
  ⟨h.2.1 0 mdKeep (by decide) rfl, h.2.1 1 [] (by decide) rfl⟩

/-- Claim C4 counterexample: the store's configured embedder is the
`NilEmbedder` while the per-call override returns zero vectors for one
document — the embedder call succeeds with a vector count different
from the document count, yet `AddDocuments` does not fail with
`ErrEmbedderWrongNumberVectors`: it issues the (empty) PUT upsert
request to the points endpoint and returns nil, because the count
check is skipped when the store's own embedder is a `NilEmbedder`. -/
theorem c4_counterexample :
    embedDocumentsGo (getEmbedder storeNilEmbedder optsOverride)
      ([docTokyo].map Document.pageContent) = .ok [] ∧
    ([] : List Vec).length ≠ [docTokyo].length ∧
    addDocuments storeNilEmbedder optsOverride exUuids [docTokyo] 200 "" =
      ([{ endpoint := getEndpoint "http://localhost:6333" "c" "/points", points := [] }],
       .ok ()) :=
  ⟨rfl, by decide, rfl⟩

/-- Claim C4 (amended): when the store's configured embedder is not a
`NilEmbedder`, the embedder call succeeds, and the number of returned
vectors differs from the number of documents, `AddDocuments` fails
with `ErrEmbedderWrongNumberVectors` and the list of issued upsert
requests is empty; when the store's embedder is a `NilEmbedder` the
count check is skipped. -/
theorem c4_vector_count_mismatch (s : Store) (opts : VOptions) (uuids : Nat → String)
    (docs : List Document) (vectors : List Vec) (statusCode : Nat) (errBody : String)
    (hnil : isNilEmbedder s.embedder = false)
    (hemb : embedDocumentsGo (getEmbedder s opts) (docs.map Document.pageContent) = .ok vectors)
    (hlen : vectors.length ≠ docs.length) :
    addDocuments s opts uuids docs statusCode errBody =
      ([], .error .errEmbedderWrongNumberVectors) := by
  simp [addDocuments, hemb, hnil, hlen]

/-- Witness for C4 (amended): a custom embedder returning zero vectors
for one document makes `AddDocuments` fail with the mismatch error. -/
theorem c4_vector_count_mismatch_witness :
    addDocuments storeCustomEmpty optsNone exUuids [docTokyo] 200 "" =
      ([], .error .errEmbedderWrongNumberVectors) :=
  c4_vector_count_mismatch storeCustomEmpty optsNone exUuids [docTokyo] [] 200 ""
    rfl rfl (by decide)

/-- Folding options none of which set the embedder leaves the embedder
field unchanged. -/
theorem foldl_embedder_eq (opts : List StoreOption) :
    ∀ (st : Store), (∀ o ∈ opts, setsEmbedder o = false) →
    (opts.foldl applyOpt st).embedder = st.embedder := by
  induction opts with
  | nil => intro st _; rfl
  | cons o rest ih =>
      intro st h
      rw [List.foldl_cons, ih (applyOpt st o)
            (fun q hq => h q (List.mem_cons_of_mem o hq))]
      have ho := h o (List.mem_cons_self o rest)
      cases o <;> first | rfl | simp [setsEmbedder] at ho

/-- Folding options none of which set the base URL leaves the base URL
field unchanged. -/
theorem foldl_baseURL_eq (opts : List StoreOption) :
    ∀ (st : Store), (∀ o ∈ opts, setsBaseURL o = false) →
    (opts.foldl applyOpt st).baseURL = st.baseURL := by
  induction opts with
  | nil => intro st _; rfl
  | cons o rest ih =>
      intro st h
      rw [List.foldl_cons, ih (applyOpt st o)
            (fun q hq => h q (List.mem_cons_of_mem o hq))]
      have ho := h o (List.mem_cons_self o rest)
      cases o <;> first | rfl | simp [setsBaseURL] at ho

/-- With no embedder configured, validation fails first with the
missing-embedder error. -/
theorem validateStore_missing_embedder (o : Store) (env : Env)
    (h : o.embedder = none) :
    validateStore o env = (zeroStore, some .missingEmbedder) := by
  simp [validateStore, h]

/-- With an empty base URL and no environment fallback, validation
always fails and returns the zero store. -/
theorem validateStore_no_baseURL (o : Store) (env : Env)
    (hurl : o.baseURL = "") (henv : env "QDRANT_BASE_URL" = "") :
    (validateStore o env).1 = zeroStore ∧ (validateStore o env).2 ≠ none := by
  unfold validateStore
  by_cases he : o.embedder.isNone
  · simp [he]
  · by_cases hk : o.apiKey = ""
    · by_cases hc : o.useCloud ∧ env "QDRANT_API_KEY" = ""
      · simp [he, hk, hc]
      · simp [he, hk, hc, hurl, henv]
    · by_cases hc : o.useCloud ∧ o.apiKey = ""
      · exact absurd hc.2 hk
      · simp [he, hk, hc, hurl, henv]

/-- Claim C6: constructing a store from options that never set the
embedder fails with the missing-embedder configuration error, the zero
store is returned, and no provisioning request is issued; likewise,
options that never set the base URL, with the environment fallback
absent, make construction fail with a configuration error (every
`ConfigError` wraps `ErrInvalidOptions`), return the zero store and
issue no provisioning request. -/
theorem c6_construction_validation (opts : List StoreOption) (env : Env) :
    ((∀ o ∈ opts, setsEmbedder o = false) →
       applyClientOptions opts env = (zeroStore, some .missingEmbedder) ∧
       new opts env = ((zeroStore, some .missingEmbedder), [])) ∧
    ((∀ o ∈ opts, setsBaseURL o = false) → env "QDRANT_BASE_URL" = "" →
       (applyClientOptions opts env).1 = zeroStore ∧
       (applyClientOptions opts env).2 ≠ none ∧
       (new opts env).2 = []) := by
  constructor
  · intro h
    have hemb : (opts.foldl applyOpt initialStore).embedder = none := by
      rw [foldl_embedder_eq opts initialStore h]
      rfl
    have hac : applyClientOptions opts env = (zeroStore, some .missingEmbedder) :=
      validateStore_missing_embedder _ env hemb
    exact ⟨hac, by simp [new, hac]⟩
  · intro h henv
    have hurl : (opts.foldl applyOpt initialStore).baseURL = "" := by
      rw [foldl_baseURL_eq opts initialStore h]
      rfl
    have hv := validateStore_no_baseURL (opts.foldl applyOpt initialStore) env hurl henv
    refine ⟨hv.1, hv.2, ?_⟩
    unfold new
    cases hac : applyClientOptions opts env with
    | mk st e =>
        cases e with
        | none =>
            exact absurd (show (applyClientOptions opts env).2 = none by rw [hac]) hv.2
        | some e' => rfl

/-- Witness for C6: options without an embedder fail with the
missing-embedder error; options with an embedder but no base URL, in
an empty environment, fail too and provision nothing. -/
theorem c6_construction_validation_witness :
    applyClientOptions [StoreOption.withBaseURL "http://localhost:6333",
      StoreOption.withCollectionName "c"] envEmpty = (zeroStore, some .missingEmbedder) ∧
    (applyClientOptions [StoreOption.withEmbedder .nilEmbedder,
      StoreOption.withCollectionName "c"] envEmpty).2 ≠ none ∧
    (new [StoreOption.withEmbedder .nilEmbedder,
      StoreOption.withCollectionName "c"] envEmpty).2 = [] :=
  have h1 := (c6_construction_validation [StoreOption.withBaseURL "http://localhost:6333",
    StoreOption.withCollectionName "c"] envEmpty).1 (by decide)
  have h2 := (c6_construction_validation [StoreOption.withEmbedder .nilEmbedder,
    StoreOption.withCollectionName "c"] envEmpty).2 (by decide) rfl
  ⟨h1.1, h2.2.1, h2.2.2⟩

/-- Claim C8: whenever option validation succeeds, `New` returns the
configured store with no error, independently of the outcomes of the
collection-creation request and the metadata-index requests (their
errors are discarded), while still issuing those provisioning
requests. -/
theorem c8_provisioning_errors_discarded (opts : List StoreOption) (env : Env) (st : Store)
    (h : applyClientOptions opts env = (st, none))
    (co co' : Option GoError) (io io' : List (Option GoError)) :
    newWithOutcomes opts env co io = (st, none) ∧
    newWithOutcomes opts env co io = newWithOutcomes opts env co' io' ∧
    new opts env = ((st, none),
      .createCollection st.collectionName ::
        st.indexKeys.map (ProvisionCall.indexMetadataKey st.collectionName)) := by
  unfold newWithOutcomes new
  rw [h]
  exact ⟨rfl, rfl, rfl⟩

/-- Witness for C8: with valid options, failing provisioning outcomes
do not change the constructed store or surface any error. -/
theorem c8_provisioning_errors_discarded_witness :
    newWithOutcomes optsC8 envEmpty (some (.apiError "creating collection" "boom"))
        [some (.apiError "indexing metadata key" "boom")] = (storeC8, none) ∧
    newWithOutcomes optsC8 envEmpty (some (.apiError "creating collection" "boom"))
        [some (.apiError "indexing metadata key" "boom")] =
      newWithOutcomes optsC8 envEmpty none [] ∧
    new optsC8 envEmpty = ((storeC8, none),
      .createCollection storeC8.collectionName ::
        storeC8.indexKeys.map (ProvisionCall.indexMetadataKey storeC8.collectionName)) :=
  c8_provisioning_errors_discarded optsC8 envEmpty storeC8 rfl
    (some (.apiError "creating collection" "boom"))
    none [some (.apiError "indexing metadata key" "boom")] []

end QdrantSpec
